import Mathlib

/-!
Shallow embedding of the habit-tracker analytics engine
(`src/src/settings.ts`, `src/src/models/Habit.ts`).

Modelling conventions:
- Calendar dates (the `YYYY-MM-DD` strings of the source) are modelled as
  epoch-day integers (`Int`).  The format is fixed-width and zero-padded, so
  string equality is date equality, lexicographic order is day order, and the
  source's day-difference arithmetic (`Math.round((curr - prev)/86400000)`)
  is plain integer subtraction.  `Date.getDay()` becomes `getDay` below
  (day 0 = 1970-01-01 = Thursday = weekday index 4).
- ISO timestamps (`createdAt`, `completedAt`, `earnedAt`) stay opaque
  `String`s; the wall clock is passed in as a `now : String` argument, and
  "today" as a `today : Int` argument.
- JS `undefined`/missing optional fields become `Option`; a present empty
  array (`some []`) is truthy, exactly as in JS.
- `generateId()` is modelled by threading a counter `g : Nat` through an
  injected `idGen : Nat → String`.
- The unbounded `while (true)` loops of the two current-streak walks are
  modelled with an explicit fuel parameter returning `Option Nat`:
  `none` means the loop has not terminated within `fuel` iterations.
- `JSON.parse` results are modelled as `Option ImportedData` (`none` = the
  parse threw, which `importData` catches and turns into `false`).
-/

namespace HabitTracker

inductive HabitFrequency where
  | daily
  | weekly
  | custom
deriving DecidableEq

inductive BadgeType where
  | week
  | month
  | century
  | year
deriving DecidableEq

structure Habit where
  id : String
  name : String
  description : Option String
  emoji : Option String
  frequency : HabitFrequency
  customDays : Option (List Int)
  categoryId : Option String
  goalDays : Option Nat
  createdAt : String
  archived : Bool
  order : Int
deriving DecidableEq

structure HabitLog where
  date : Int
  habitId : String
  completed : Bool
  note : Option String
  completedAt : Option String
deriving DecidableEq

structure Category where
  id : String
  name : String
  color : String
  emoji : Option String
  order : Int
deriving DecidableEq

structure FreezeDay where
  date : Int
  reason : Option String
deriving DecidableEq

structure Badge where
  id : String
  habitId : String
  type : BadgeType
  earnedAt : String
deriving DecidableEq

structure HabitData where
  habits : List Habit
  logs : List HabitLog
  categories : Option (List Category)
  freezeDays : Option (List FreezeDay)
  badges : Option (List Badge)
  version : Nat
deriving DecidableEq

/-- `DEFAULT_HABIT_DATA` from `models/Habit.ts`. -/
def DEFAULT_HABIT_DATA : HabitData :=
  { habits := [], logs := [], categories := some [], freezeDays := some [],
    badges := some [], version := 2 }

structure Milestone where
  type : BadgeType
  days : Nat
  emoji : String
  label : String
deriving DecidableEq

/-- `BADGE_MILESTONES` from `models/Habit.ts` (emoji kept as names). -/
def BADGE_MILESTONES : List Milestone :=
  [ { type := BadgeType.week, days := 7, emoji := "fire", label := "First Week" },
    { type := BadgeType.month, days := 30, emoji := "star", label := "Monthly Master" },
    { type := BadgeType.century, days := 100, emoji := "gem", label := "Century Club" },
    { type := BadgeType.year, days := 365, emoji := "crown", label := "Year Champion" } ]

/-- `Date.getDay()` on an epoch-day number: 0 = Sunday … 6 = Saturday
(epoch day 0, 1970-01-01, was a Thursday). -/
def getDay (d : Int) : Int := (d + 4) % 7

/-- `createHabitLog` from `models/Habit.ts`; `now` is the injected clock. -/
def createHabitLog (now : String) (habitId : String) (date : Int)
    (completed : Bool) (note : Option String) : HabitLog :=
  { date := date, habitId := habitId, completed := completed, note := note,
    completedAt := if completed then some now else none }

/-- `createFreezeDay` from `models/Habit.ts`. -/
def createFreezeDay (date : Int) (reason : Option String) : FreezeDay :=
  { date := date, reason := reason }

/-- `createBadge` from `models/Habit.ts`; `now` and `id` are injected. -/
def createBadge (now id : String) (habitId : String) (t : BadgeType) : Badge :=
  { id := id, habitId := habitId, type := t, earnedAt := now }

/-- `isFrozenDate` from `models/Habit.ts`. -/
def isFrozenDate (date : Int) (freezeDays : List FreezeDay) : Bool :=
  freezeDays.any fun f => decide (f.date = date)

/-- `isHabitDueOnDate` from `models/Habit.ts`
(`habit.customDays?.includes(dayOfWeek) ?? default`). -/
def isHabitDueOnDate (habit : Habit) (date : Int) : Bool :=
  let dayOfWeek := getDay date
  match habit.frequency with
  | HabitFrequency.daily => true
  | HabitFrequency.weekly =>
    match habit.customDays with
    | some cd => cd.any fun x => decide (x = dayOfWeek)
    | none => decide (dayOfWeek = 0)
  | HabitFrequency.custom =>
    match habit.customDays with
    | some cd => cd.any fun x => decide (x = dayOfWeek)
    | none => false

/-- `DataService.getHabit`. -/
def getHabit (d : HabitData) (id : String) : Option Habit :=
  d.habits.find? fun h => decide (h.id = id)

/-- The body of `DataService.getLogs` on an explicit log list
(the source reads `this.data.logs` and then filters and sorts). -/
def getLogsOf (logs : List HabitLog) (habitId : Option String)
    (startDate endDate : Option Int) : List HabitLog :=
  let l1 := match habitId with
    | some hid => logs.filter fun l => decide (l.habitId = hid)
    | none => logs
  let l2 := match startDate with
    | some s => l1.filter fun l => decide (s ≤ l.date)
    | none => l1
  let l3 := match endDate with
    | some e => l2.filter fun l => decide (l.date ≤ e)
    | none => l2
  List.insertionSort (fun a b : HabitLog => b.date ≤ a.date) l3

/-- `DataService.getLogs` (filter, then sort descending by date). -/
def getLogs (d : HabitData) (habitId : Option String)
    (startDate endDate : Option Int) : List HabitLog :=
  getLogsOf d.logs habitId startDate endDate

/-- `DataService.getLog`. -/
def getLog (d : HabitData) (habitId : String) (date : Int) : Option HabitLog :=
  d.logs.find? fun l => decide (l.habitId = habitId ∧ l.date = date)

/-- In the source, `toggleHabit`/`setHabitCompletion` mutate the object that
`getLog` found, i.e. the first log matching `(habitId, date)`; here the list
is rebuilt with that first match replaced. -/
def updateFirstLog (logs : List HabitLog) (habitId : String) (date : Int)
    (f : HabitLog → HabitLog) : List HabitLog :=
  match logs with
  | [] => []
  | l :: ls =>
    if l.habitId = habitId ∧ l.date = date then f l :: ls
    else l :: updateFirstLog ls habitId date f

/-- The in-place update `toggleHabit` performs on an existing log. -/
def flipLog (now : String) (l : HabitLog) : HabitLog :=
  { l with completed := !l.completed,
           completedAt := if !l.completed then some now else none }

/-- `DataService.toggleHabit`; `date = none` models an omitted argument
(the source then uses `formatDate(new Date())`, i.e. `today`). -/
def toggleHabit (today : Int) (now : String) (d : HabitData)
    (habitId : String) (date : Option Int) : HabitLog × HabitData :=
  let targetDate := date.getD today
  match getLog d habitId targetDate with
  | some l =>
    (flipLog now l,
     { d with logs := updateFirstLog d.logs habitId targetDate (flipLog now) })
  | none =>
    let nl := createHabitLog now habitId targetDate true none
    (nl, { d with logs := d.logs ++ [nl] })

/-- The in-place update `setHabitCompletion` performs on an existing log. -/
def setLogCompletion (now : String) (completed : Bool) (note : Option String)
    (l : HabitLog) : HabitLog :=
  { l with completed := completed, note := note,
           completedAt := if completed then some now else none }

/-- `DataService.setHabitCompletion`; an omitted `note` argument is `none`. -/
def setHabitCompletion (now : String) (d : HabitData) (habitId : String)
    (date : Int) (completed : Bool) (note : Option String) :
    HabitLog × HabitData :=
  match getLog d habitId date with
  | some l =>
    (setLogCompletion now completed note l,
     { d with logs := updateFirstLog d.logs habitId date
                        (setLogCompletion now completed note) })
  | none =>
    let nl := createHabitLog now habitId date completed note
    (nl, { d with logs := d.logs ++ [nl] })

/-- `DataService.isFrozen` (`this.data.freezeDays || []`). -/
def isFrozen (d : HabitData) (date : Int) : Bool :=
  isFrozenDate date (d.freezeDays.getD [])

/-- `DataService.addFreezeDay`: normalizes a missing ledger to `[]`, then
either no-ops (already frozen) or appends a fresh entry. -/
def addFreezeDay (d : HabitData) (date : Int) (reason : Option String) :
    Option FreezeDay × HabitData :=
  let d0 : HabitData := { d with freezeDays := some (d.freezeDays.getD []) }
  if isFrozen d0 date then (none, d0)
  else
    let fd := createFreezeDay date reason
    (some fd, { d0 with freezeDays := some (d0.freezeDays.getD [] ++ [fd]) })

/-- `DataService.hasBadge`. -/
def hasBadge (d : HabitData) (habitId : String) (t : BadgeType) : Bool :=
  (d.badges.getD []).any fun b => decide (b.habitId = habitId ∧ b.type = t)

/-- `DataService.awardBadge`: normalizes a missing badge list to `[]`, then
returns `none` on a duplicate `(habitId, type)` pair, else appends. -/
def awardBadge (now id : String) (d : HabitData) (habitId : String)
    (t : BadgeType) : Option Badge × HabitData :=
  let d0 : HabitData := { d with badges := some (d.badges.getD []) }
  if hasBadge d0 habitId t then (none, d0)
  else
    let b := createBadge now id habitId t
    (some b, { d0 with badges := some (d0.badges.getD [] ++ [b]) })

/-- The `while (true)` loop of `DataService.getCurrentStreak`, with fuel.
`logs` is the already filtered-and-sorted completed-log list the loop
searches; one fuel unit is one loop iteration; `none` = fuel exhausted
(the source loop is still running after that many iterations). -/
def streakLoop (habit : Habit) (logs : List HabitLog) :
    Nat → Int → Nat → Option Nat
  | 0, _, _ => none
  | fuel + 1, currentDate, streak =>
    let hit := match logs.find? (fun l => decide (l.date = currentDate)) with
      | some log => log.completed
      | none => false
    if hit then
      let streak' := streak + 1
      if streak' > 3650 then some streak'
      else streakLoop habit logs fuel (currentDate - 1) streak'
    else if habit.frequency = HabitFrequency.daily then some streak
    else match habit.customDays with
      | some cd =>
        if cd.any (fun x => decide (x = getDay currentDate)) then some streak
        else if streak > 3650 then some streak
        else streakLoop habit logs fuel (currentDate - 1) streak
      | none => some streak

/-- `DataService.getCurrentStreak` with fuel for its walk. -/
def getCurrentStreak (fuel : Nat) (today : Int) (d : HabitData)
    (habitId : String) : Option Nat :=
  let logs := (getLogs d (some habitId) none none).filter fun l => l.completed
  if logs.isEmpty then some 0
  else match getHabit d habitId with
  | none => some 0
  | some habit =>
    let start :=
      if (logs.find? (fun l => decide (l.date = today))).isSome then today
      else today - 1
    streakLoop habit logs fuel start 0

/-- The `while (true)` loop of `DataService.getCurrentStreakWithFreeze`:
identical to `streakLoop` except a frozen date is skipped (`continue`)
before anything else, bypassing the 3650 check. -/
def streakLoopF (habit : Habit) (logs : List HabitLog)
    (freezeDays : List FreezeDay) : Nat → Int → Nat → Option Nat
  | 0, _, _ => none
  | fuel + 1, currentDate, streak =>
    if isFrozenDate currentDate freezeDays then
      streakLoopF habit logs freezeDays fuel (currentDate - 1) streak
    else
      let hit := match logs.find? (fun l => decide (l.date = currentDate)) with
        | some log => log.completed
        | none => false
      if hit then
        let streak' := streak + 1
        if streak' > 3650 then some streak'
        else streakLoopF habit logs freezeDays fuel (currentDate - 1) streak'
      else if habit.frequency = HabitFrequency.daily then some streak
      else match habit.customDays with
        | some cd =>
          if cd.any (fun x => decide (x = getDay currentDate)) then some streak
          else if streak > 3650 then some streak
          else streakLoopF habit logs freezeDays fuel (currentDate - 1) streak
        | none => some streak

/-- `DataService.getCurrentStreakWithFreeze` with fuel for its walk. -/
def getCurrentStreakWithFreeze (fuel : Nat) (today : Int) (d : HabitData)
    (habitId : String) : Option Nat :=
  let logs := (getLogs d (some habitId) none none).filter fun l => l.completed
  if logs.isEmpty then some 0
  else match getHabit d habitId with
  | none => some 0
  | some habit =>
    let fds := d.freezeDays.getD []
    let todayLog := (logs.find? (fun l => decide (l.date = today))).isSome
    let todayFrozen := isFrozenDate today fds
    let start := if todayLog || todayFrozen then today else today - 1
    streakLoopF habit logs fds fuel start 0

/-- The scan of `DataService.getLongestStreak` over the ascending-sorted
completed logs: `prev` is the previous log's date, `cur` the running
counter, `best` the maximum so far. -/
def longestScan : Int → Nat → Nat → List HabitLog → Nat
  | _, _, best, [] => best
  | prev, cur, best, x :: xs =>
    if x.date - prev = 1 then
      longestScan x.date (cur + 1) (max best (cur + 1)) xs
    else longestScan x.date 1 best xs

/-- `DataService.getLongestStreak`: completed logs sorted ascending by date,
then the consecutive-day scan (1-initialised when nonempty). -/
def getLongestStreak (d : HabitData) (habitId : String) : Nat :=
  let logs := List.insertionSort (fun a b : HabitLog => a.date ≤ b.date)
    ((getLogs d (some habitId) none none).filter fun l => l.completed)
  match logs with
  | [] => 0
  | l0 :: rest => longestScan l0.date 1 1 rest

/-- The milestone loop of `DataService.checkAndAwardBadges`, threading the
snapshot, id counter and accumulated new badges. -/
def awardFold (now : String) (idGen : Nat → String) (habitId : String)
    (streak : Nat) : List Milestone → Nat → HabitData → List Badge →
    List Badge × HabitData × Nat
  | [], g, d, acc => (acc, d, g)
  | m :: ms, g, d, acc =>
    if streak ≥ m.days ∧ hasBadge d habitId m.type = false then
      match awardBadge now (idGen g) d habitId m.type with
      | (some b, d') => awardFold now idGen habitId streak ms (g + 1) d' (acc ++ [b])
      | (none, d') => awardFold now idGen habitId streak ms g d' acc
    else awardFold now idGen habitId streak ms g d acc

/-- `DataService.checkAndAwardBadges`: computes the PLAIN current streak
(`getCurrentStreak`) and walks `BADGE_MILESTONES`; `none` = the streak walk
itself did not terminate within `fuel`. -/
def checkAndAwardBadges (fuel : Nat) (today : Int) (now : String)
    (idGen : Nat → String) (g : Nat) (d : HabitData) (habitId : String) :
    Option (List Badge × HabitData × Nat) :=
  match getCurrentStreak fuel today d habitId with
  | none => none
  | some streak => some (awardFold now idGen habitId streak BADGE_MILESTONES g d [])

/-- A parsed import payload: each field `Option` because the JSON may lack
it (`none` covers an absent key; `JSON.parse` failure is modelled by the
caller passing `none` for the whole payload). -/
structure ImportedData where
  habits : Option (List Habit)
  logs : Option (List HabitLog)
  categories : Option (List Category)
  freezeDays : Option (List FreezeDay)
  badges : Option (List Badge)
  version : Option Nat
deriving DecidableEq

/-- The spread `{ ...DEFAULT_HABIT_DATA, ...imported }` of
`DataService.importData`: a field present in the payload wins, a missing
one keeps the default. -/
def mergeImported (imp : ImportedData) : HabitData :=
  { habits := imp.habits.getD DEFAULT_HABIT_DATA.habits
    logs := imp.logs.getD DEFAULT_HABIT_DATA.logs
    categories := match imp.categories with
      | some cs => some cs
      | none => DEFAULT_HABIT_DATA.categories
    freezeDays := match imp.freezeDays with
      | some fs => some fs
      | none => DEFAULT_HABIT_DATA.freezeDays
    badges := match imp.badges with
      | some bs => some bs
      | none => DEFAULT_HABIT_DATA.badges
    version := imp.version.getD DEFAULT_HABIT_DATA.version }

/-- `DataService.importData` as a pure state transformer:
`parsed = none` is a caught parse exception (`catch { return false }`);
otherwise the guard `imported.habits && imported.logs` (arrays are truthy,
including empty ones) decides between replacing and keeping the snapshot. -/
def importData (parsed : Option ImportedData) (d : HabitData) :
    Bool × HabitData :=
  match parsed with
  | none => (false, d)
  | some imp =>
    if imp.habits.isSome && imp.logs.isSome then (true, mergeImported imp)
    else (false, d)

/-- The current-streak walk as claim C4 reads it: stated from the spec's
words, for comparison with `streakLoop`.  Identical walk, but whether an
incomplete day breaks the streak is decided by `isHabitDueOnDate` with its
documented defaults (weekly without `customDays` is due on Sundays only,
custom without `customDays` is never due). -/
def streakLoopPerSpec (habit : Habit) (logs : List HabitLog) :
    Nat → Int → Nat → Option Nat
  | 0, _, _ => none
  | fuel + 1, currentDate, streak =>
    let hit := match logs.find? (fun l => decide (l.date = currentDate)) with
      | some log => log.completed
      | none => false
    if hit then
      let streak' := streak + 1
      if streak' > 3650 then some streak'
      else streakLoopPerSpec habit logs fuel (currentDate - 1) streak'
    else if isHabitDueOnDate habit currentDate then some streak
    else if streak > 3650 then some streak
    else streakLoopPerSpec habit logs fuel (currentDate - 1) streak

/-- Top level of the claimed walk (same bootstrap as `getCurrentStreak`,
loop replaced by `streakLoopPerSpec`). -/
def getCurrentStreakPerSpec (fuel : Nat) (today : Int) (d : HabitData)
    (habitId : String) : Option Nat :=
  let logs := (getLogs d (some habitId) none none).filter fun l => l.completed
  if logs.isEmpty then some 0
  else match getHabit d habitId with
  | none => some 0
  | some habit =>
    let start :=
      if (logs.find? (fun l => decide (l.date = today))).isSome then today
      else today - 1
    streakLoopPerSpec habit logs fuel start 0

/-- A run of `n` consecutive calendar dates starting at `d`, all of which
appear in `S`. -/
def hasRun (S : List Int) (d : Int) (n : Nat) : Prop :=
  ∀ i : Nat, i < n → (d + (i : Int)) ∈ S

/-- `m` is the length of the longest run of consecutive calendar dates
among the dates in `S`. -/
def isLongestRun (S : List Int) (m : Nat) : Prop :=
  (∃ d, hasRun S d m) ∧ ∀ d n, hasRun S d n → n ≤ m

/-! Concrete fixtures used by witnesses and counterexamples. -/

/-- A daily habit with id `"h"`. -/
def exHabitDaily : Habit :=
  { id := "h", name := "H", description := none, emoji := none,
    frequency := HabitFrequency.daily, customDays := none, categoryId := none,
    goalDays := none, createdAt := "", archived := false, order := 1 }

/-- A weekly habit with no `customDays`. -/
def exHabitWeekly : Habit := { exHabitDaily with frequency := HabitFrequency.weekly }

/-- A custom-frequency habit whose `customDays` list is present but empty
(an empty array is truthy in JS). -/
def exHabitCustomEmpty : Habit :=
  { exHabitDaily with frequency := HabitFrequency.custom, customDays := some [] }

/-- A completed log for habit `"h"` on day `d`. -/
def exLog (d : Int) : HabitLog :=
  { date := d, habitId := "h", completed := true, note := none, completedAt := none }

/-- A completed log for habit `"h"` on day 5 carrying a note. -/
def exLogNoted : HabitLog :=
  { date := 5, habitId := "h", completed := true, note := some "memo",
    completedAt := none }

/-- A snapshot with the given habits, logs and freeze days. -/
def mkData (hs : List Habit) (ls : List HabitLog) (fds : List FreezeDay) :
    HabitData :=
  { habits := hs, logs := ls, categories := some [], freezeDays := some fds,
    badges := some [], version := 2 }

/-- A snapshot holding `exLogNoted` for claim C10's witness. -/
def c10Data : HabitData := mkData [exHabitDaily] [exLogNoted] []

/-- Claim C2's failing input: a custom habit with an empty `customDays` and a
single completed log in the past.  Walking back from day 6, day 5 is
completed (streak 1) and every earlier day is incomplete but "not due", so
the walk keeps stepping back while `streak` stays 1 — the `streak > 3650`
cap never fires. -/
def nontermData : HabitData := mkData [exHabitCustomEmpty] [exLog 5] []

/-- Claim C4's counterexample input: weekly habit without `customDays`,
completed on days 5 and 3, day 4 (a Monday) incomplete, today = 6. -/
def c4Data : HabitData := mkData [exHabitWeekly] [exLog 5, exLog 3] []

/-- The identifier supply used in concrete badge examples. -/
def exIdGen : Nat → String := fun _ => "b"

/-- Claim C1's counterexample input: daily habit completed on days
2,4,5,6,7,8,9, day 3 frozen, today = 10.  The freeze-aware streak is 7 and
no week badge exists, yet `checkAndAwardBadges` awards nothing because the
plain streak is 6. -/
def c1Data : HabitData :=
  mkData [exHabitDaily]
    [exLog 2, exLog 4, exLog 5, exLog 6, exLog 7, exLog 8, exLog 9]
    [{ date := 3, reason := none }]

/-- A snapshot whose plain current streak (today = 10) is exactly 7. -/
def c7Data : HabitData :=
  mkData [exHabitDaily]
    [exLog 3, exLog 4, exLog 5, exLog 6, exLog 7, exLog 8, exLog 9] []

/-- The running example of the spec: daily habit completed on days 1‥3 and
5‥7, day 4 frozen, today = 8. -/
def specExData : HabitData :=
  mkData [exHabitDaily]
    [exLog 1, exLog 2, exLog 3, exLog 5, exLog 6, exLog 7]
    [{ date := 4, reason := none }]

/-- The badge created by the first `checkAndAwardBadges` call on `c7Data`. -/
def c7Badge : Badge :=
  { id := "b", habitId := "h", type := BadgeType.week, earnedAt := "now" }

/-- The snapshot after the first `checkAndAwardBadges` call on `c7Data`. -/
def c7DataAfter : HabitData := { c7Data with badges := some [c7Badge] }

/-! Helper lemmas about log lookup and first-match update. -/

theorem find?_append_of_none {α : Type} (p : α → Bool) (xs ys : List α)
    (h : xs.find? p = none) : (xs ++ ys).find? p = ys.find? p := by
  induction xs with
  | nil => simp
  | cons x xs ih =>
    by_cases hx : p x = true
    · rw [List.find?_cons_of_pos _ hx] at h; exact absurd h (by simp)
    · rw [List.find?_cons_of_neg _ (by simpa using hx)] at h
      simpa [List.find?_cons_of_neg _ (by simpa using hx)] using ih h

theorem find?_updateFirstLog (logs : List HabitLog) (hid : String) (dt : Int)
    (f : HabitLog → HabitLog) (l0 : HabitLog)
    (h : logs.find? (fun l => decide (l.habitId = hid ∧ l.date = dt)) = some l0)
    (hp1 : (f l0).habitId = l0.habitId) (hp2 : (f l0).date = l0.date) :
    (updateFirstLog logs hid dt f).find?
      (fun l => decide (l.habitId = hid ∧ l.date = dt)) = some (f l0) := by
  induction logs with
  | nil => simp at h
  | cons l ls ih =>
    by_cases hc : l.habitId = hid ∧ l.date = dt
    · rw [List.find?_cons_of_pos _ (by simpa using hc)] at h
      have hl : l = l0 := by simpa using h
      subst hl
      have hm : (l.habitId = hid ∧ l.date = dt) := hc
      rw [updateFirstLog, if_pos hc]
      exact List.find?_cons_of_pos _ (by simp [hp1, hp2]; exact hm)
    · rw [List.find?_cons_of_neg _ (by simpa using hc)] at h
      rw [updateFirstLog, if_neg hc]
      rw [List.find?_cons_of_neg _ (by simpa using hc)]
      exact ih h

/-- Claim C9: `addFreezeDay` on an already-frozen date returns `null` and
leaves the snapshot unchanged, and it never creates a second entry for a
date, so the ledger keeps at most one entry per date. -/
theorem addFreezeDay_duplicate_noop :
    ∀ (d : HabitData) (date : Int) (reason : Option String),
      (isFrozen d date = true → addFreezeDay d date reason = (none, d)) ∧
      (((d.freezeDays.getD []).map FreezeDay.date).Nodup →
        (((addFreezeDay d date reason).2.freezeDays.getD []).map
            FreezeDay.date).Nodup) := by
  intro d date reason
  constructor
  · intro h
    obtain ⟨L, hL⟩ : ∃ L, d.freezeDays = some L := by
      cases hf : d.freezeDays with
      | none => rw [isFrozen, hf] at h; simp [isFrozenDate] at h
      | some L => exact ⟨L, rfl⟩
    have hd0 : ({ d with freezeDays := some (d.freezeDays.getD []) } : HabitData) = d := by
      cases d; simp_all
    rw [addFreezeDay]
    simp only [hd0]
    rw [if_pos h]
  · intro hnd
    rw [addFreezeDay]
    by_cases h : isFrozen ({ d with freezeDays := some (d.freezeDays.getD []) } : HabitData) date = true
    · rw [if_pos h]; simpa using hnd
    · rw [if_neg h]
      have hnotmem : date ∉ List.map FreezeDay.date (d.freezeDays.getD []) := by
        intro hmem
        obtain ⟨f, hf, hfd⟩ := List.mem_map.mp hmem
        apply h
        simp only [isFrozen, isFrozenDate, Option.getD_some]
        exact List.any_eq_true.mpr ⟨f, hf, by simpa using hfd⟩
      simp only [Option.getD_some, List.map_append, createFreezeDay,
        List.map_cons, List.map_nil]
      exact List.Nodup.append hnd (List.nodup_singleton _) (by
        intro x hx hy
        simp only [List.mem_singleton] at hy
        subst hy; exact hnotmem hx)

/-- Claim C3: `importData` fails and leaves the snapshot unchanged exactly
when the parse failed (`parsed = none`) or the payload does not carry both a
habits and a logs collection; otherwise it succeeds, replacing the snapshot
with the payload and filling the missing `categories`/`freezeDays`/`badges`/
`version` fields from defaults.  (The parse exception is already caught in
the model: `importData` is total.) -/
theorem importData_spec :
    ∀ (parsed : Option ImportedData) (d : HabitData),
      ((importData parsed d).1 = false → (importData parsed d).2 = d) ∧
      ((importData parsed d).1 = false ↔
        parsed = none ∨
          ∃ imp, parsed = some imp ∧ (imp.habits = none ∨ imp.logs = none)) ∧
      (∀ imp hs ls, parsed = some imp → imp.habits = some hs →
        imp.logs = some ls →
        importData parsed d = (true, mergeImported imp) ∧
        (mergeImported imp).habits = hs ∧
        (mergeImported imp).logs = ls ∧
        (mergeImported imp).categories = some (imp.categories.getD []) ∧
        (mergeImported imp).freezeDays = some (imp.freezeDays.getD []) ∧
        (mergeImported imp).badges = some (imp.badges.getD []) ∧
        (mergeImported imp).version = imp.version.getD 2) := by
  intro parsed d
  refine ⟨?_, ?_, ?_⟩
  · cases parsed with
    | none => intro _; rfl
    | some imp =>
      by_cases h : (imp.habits.isSome && imp.logs.isSome) = true
      · intro hfalse; rw [importData, if_pos h] at hfalse; simp at hfalse
      · intro _; rw [importData, if_neg h]
  · cases parsed with
    | none => simp [importData]
    | some imp =>
      rw [importData]
      by_cases h : (imp.habits.isSome && imp.logs.isSome) = true
      · rw [if_pos h]
        constructor
        · intro hfalse; exact absurd hfalse (by simp)
        · rintro (hn | ⟨imp', heq, hcase⟩)
          · exact absurd hn (by simp)
          · obtain rfl : imp = imp' := by injection heq
            rcases hcase with hh | hl
            · simp [hh] at h
            · simp [hl] at h
      · rw [if_neg h]
        have h' : imp.habits.isSome = false ∨ imp.logs.isSome = false := by
          rcases Bool.eq_false_or_eq_true imp.habits.isSome with hh | hh
          · rcases Bool.eq_false_or_eq_true imp.logs.isSome with hl | hl
            · exact absurd (by rw [hh, hl]; rfl) h
            · exact Or.inr hl
          · exact Or.inl hh
        constructor
        · intro _
          right
          refine ⟨imp, rfl, ?_⟩
          rcases h' with hh | hl
          · exact Or.inl (Option.not_isSome_iff_eq_none.mp (by simp [hh]))
          · exact Or.inr (Option.not_isSome_iff_eq_none.mp (by simp [hl]))
        · intro _; rfl
  · intro imp hs ls hp hh hl
    subst hp
    have hcond : (imp.habits.isSome && imp.logs.isSome) = true := by simp [hh, hl]
    refine ⟨by rw [importData, if_pos hcond], ?_, ?_, ?_, ?_, ?_, ?_⟩
    · simp [mergeImported, hh]
    · simp [mergeImported, hl]
    · cases hc : imp.categories <;> simp [mergeImported, hc, DEFAULT_HABIT_DATA]
    · cases hf : imp.freezeDays <;> simp [mergeImported, hf, DEFAULT_HABIT_DATA]
    · cases hb : imp.badges <;> simp [mergeImported, hb, DEFAULT_HABIT_DATA]
    · cases hv : imp.version <;> simp [mergeImported, hv, DEFAULT_HABIT_DATA]

/-- Claim C8: toggling twice restores the original `completed` value (an
absent log counting as not completed), any toggle landing on
`completed = false` leaves no completion timestamp, a single toggle flips
`completed`, and an omitted date defaults to today. -/
theorem toggleHabit_twice (t : Int) (now1 now2 : String) (d : HabitData)
    (hid : String) (dt : Int) :
    (∃ l1, getLog (toggleHabit t now1 d hid (some dt)).2 hid dt = some l1 ∧
      l1.completed = !(((getLog d hid dt).map HabitLog.completed).getD false) ∧
      (l1.completed = false → l1.completedAt = none)) ∧
    (∃ l2, getLog (toggleHabit t now2
        (toggleHabit t now1 d hid (some dt)).2 hid (some dt)).2 hid dt = some l2 ∧
      l2.completed = ((getLog d hid dt).map HabitLog.completed).getD false ∧
      (l2.completed = false → l2.completedAt = none)) ∧
    toggleHabit t now1 d hid none = toggleHabit t now1 d hid (some t) := by
  refine ⟨?_, ?_, rfl⟩
  · cases h0 : getLog d hid dt with
    | some l0 =>
      have h1 : getLog (toggleHabit t now1 d hid (some dt)).2 hid dt
          = some (flipLog now1 l0) := by
        rw [toggleHabit]
        simp only [Option.getD_some]
        rw [h0]
        exact find?_updateFirstLog d.logs hid dt (flipLog now1) l0 h0 rfl rfl
      refine ⟨flipLog now1 l0, h1, rfl, ?_⟩
      intro hfalse
      simp only [flipLog] at hfalse ⊢
      simp [hfalse]
    | none =>
      have h1 : getLog (toggleHabit t now1 d hid (some dt)).2 hid dt
          = some (createHabitLog now1 hid dt true none) := by
        rw [toggleHabit]
        simp only [Option.getD_some]
        rw [h0]
        show (d.logs ++ [createHabitLog now1 hid dt true none]).find? _ = _
        rw [find?_append_of_none _ _ _ h0]
        simp [createHabitLog]
      refine ⟨createHabitLog now1 hid dt true none, h1, rfl, ?_⟩
      intro hfalse
      simp [createHabitLog] at hfalse
  · cases h0 : getLog d hid dt with
    | some l0 =>
      have h1 : getLog (toggleHabit t now1 d hid (some dt)).2 hid dt
          = some (flipLog now1 l0) := by
        rw [toggleHabit]
        simp only [Option.getD_some]
        rw [h0]
        exact find?_updateFirstLog d.logs hid dt (flipLog now1) l0 h0 rfl rfl
      have h2 : getLog (toggleHabit t now2
          (toggleHabit t now1 d hid (some dt)).2 hid (some dt)).2 hid dt
          = some (flipLog now2 (flipLog now1 l0)) := by
        rw [toggleHabit]
        simp only [Option.getD_some]
        rw [h1]
        exact find?_updateFirstLog _ hid dt (flipLog now2) (flipLog now1 l0) h1 rfl rfl
      refine ⟨flipLog now2 (flipLog now1 l0), h2, ?_, ?_⟩
      · simp [flipLog, Bool.not_not]
      · intro hfalse
        simp only [flipLog] at hfalse ⊢
        simp [hfalse]
    | none =>
      have h1 : getLog (toggleHabit t now1 d hid (some dt)).2 hid dt
          = some (createHabitLog now1 hid dt true none) := by
        rw [toggleHabit]
        simp only [Option.getD_some]
        rw [h0]
        show (d.logs ++ [createHabitLog now1 hid dt true none]).find? _ = _
        rw [find?_append_of_none _ _ _ h0]
        simp [createHabitLog]
      have h2 : getLog (toggleHabit t now2
          (toggleHabit t now1 d hid (some dt)).2 hid (some dt)).2 hid dt
          = some (flipLog now2 (createHabitLog now1 hid dt true none)) := by
        rw [toggleHabit]
        simp only [Option.getD_some]
        rw [h1]
        exact find?_updateFirstLog _ hid dt (flipLog now2)
          (createHabitLog now1 hid dt true none) h1 rfl rfl
      refine ⟨flipLog now2 (createHabitLog now1 hid dt true none), h2, rfl, ?_⟩
      intro _; rfl

/-- Claim C10: on an existing log carrying a note, `setHabitCompletion`
called with the note argument omitted clears the stored note, while
`toggleHabit` on the same log leaves the note untouched. -/
theorem setCompletion_clears_note (now1 : String) (t : Int) (now2 : String)
    (d : HabitData) (hid : String) (dt : Int) (completed : Bool)
    (l0 : HabitLog) (s : String)
    (h0 : getLog d hid dt = some l0) (hn : l0.note = some s) :
    (∃ l1, getLog (setHabitCompletion now1 d hid dt completed none).2 hid dt
        = some l1 ∧ l1.note = none) ∧
    (∃ l2, getLog (toggleHabit t now2 d hid (some dt)).2 hid dt = some l2 ∧
      l2.note = some s) := by
  constructor
  · refine ⟨setLogCompletion now1 completed none l0, ?_, rfl⟩
    rw [setHabitCompletion, h0]
    exact find?_updateFirstLog d.logs hid dt
      (setLogCompletion now1 completed none) l0 h0 rfl rfl
  · refine ⟨flipLog now2 l0, ?_, ?_⟩
    · rw [toggleHabit]
      simp only [Option.getD_some]
      rw [h0]
      exact find?_updateFirstLog d.logs hid dt (flipLog now2) l0 h0 rfl rfl
    · simp only [flipLog]
      exact hn

/-- Witness for claim C10 at a concrete snapshot. -/
theorem setCompletion_clears_note_witness :
    (∃ l1, getLog (setHabitCompletion "n1" c10Data "h" 5 false none).2 "h" 5
        = some l1 ∧ l1.note = none) ∧
    (∃ l2, getLog (toggleHabit 9 "n2" c10Data "h" (some 5)).2 "h" 5 = some l2 ∧
      l2.note = some "memo") :=
  setCompletion_clears_note "n1" 9 "n2" c10Data "h" 5 false exLogNoted "memo"
    rfl rfl

theorem nonterm_loop (fuel : Nat) : ∀ (dd : Int) (s : Nat), dd < 5 → s ≤ 3650 →
    streakLoop exHabitCustomEmpty [exLog 5] fuel dd s = none := by
  induction fuel with
  | zero => intro dd s _ _; rfl
  | succ fuel ih =>
    intro dd s hd hs
    have hfind : ([exLog 5].find? fun l => decide (l.date = dd)) = none := by
      rw [List.find?_cons_of_neg _ (by simp [exLog]; omega)]
      rfl
    rw [streakLoop]
    simp only [hfind]
    have hfreq : ¬(exHabitCustomEmpty.frequency = HabitFrequency.daily) := by
      simp [exHabitCustomEmpty, exHabitDaily]
    simp only [if_neg hfreq, exHabitCustomEmpty, exHabitDaily, List.any_nil,
      Bool.false_eq_true, if_false, if_neg (by omega : ¬(s > 3650))]
    exact ih (dd - 1) s (by omega) hs

theorem nonterm_loopF (fuel : Nat) : ∀ (dd : Int) (s : Nat), dd < 5 → s ≤ 3650 →
    streakLoopF exHabitCustomEmpty [exLog 5] [] fuel dd s = none := by
  induction fuel with
  | zero => intro dd s _ _; rfl
  | succ fuel ih =>
    intro dd s hd hs
    have hfind : ([exLog 5].find? fun l => decide (l.date = dd)) = none := by
      rw [List.find?_cons_of_neg _ (by simp [exLog]; omega)]
      rfl
    rw [streakLoopF]
    have hfz : isFrozenDate dd [] = false := rfl
    simp only [hfz, Bool.false_eq_true, if_false, hfind]
    have hfreq : ¬(exHabitCustomEmpty.frequency = HabitFrequency.daily) := by
      simp [exHabitCustomEmpty, exHabitDaily]
    simp only [if_neg hfreq, exHabitCustomEmpty, exHabitDaily, List.any_nil,
      Bool.false_eq_true, if_false, if_neg (by omega : ¬(s > 3650))]
    exact ih (dd - 1) s (by omega) hs

/-- Claim C2: the spec says the 3650 cap bounds the number of walk
iterations on all inputs.  It does not: the cap tests `streak`, which grows
only on completed days, so on `nontermData` (custom habit, empty
`customDays`, one completed log) both walks run forever — for every fuel
bound they are still running.  This contradicts the source's own comment
("Safety limit to prevent infinite loops"), so the claim reflects the
intent and the code is wrong. -/
theorem currentStreak_walks_can_fail_to_terminate (fuel : Nat) :
    getCurrentStreak fuel 6 nontermData "h" = none ∧
    getCurrentStreakWithFreeze fuel 6 nontermData "h" = none := by
  constructor
  · have hstep : getCurrentStreak fuel 6 nontermData "h"
        = streakLoop exHabitCustomEmpty [exLog 5] fuel 5 0 := rfl
    rw [hstep]
    cases fuel with
    | zero => rfl
    | succ fuel =>
      have h1 : streakLoop exHabitCustomEmpty [exLog 5] (fuel + 1) 5 0
          = streakLoop exHabitCustomEmpty [exLog 5] fuel 4 1 := rfl
      rw [h1]
      exact nonterm_loop fuel 4 1 (by omega) (by omega)
  · have hstep : getCurrentStreakWithFreeze fuel 6 nontermData "h"
        = streakLoopF exHabitCustomEmpty [exLog 5] [] fuel 5 0 := rfl
    rw [hstep]
    cases fuel with
    | zero => rfl
    | succ fuel =>
      have h1 : streakLoopF exHabitCustomEmpty [exLog 5] [] (fuel + 1) 5 0
          = streakLoopF exHabitCustomEmpty [exLog 5] [] fuel 4 1 := rfl
      rw [h1]
      exact nonterm_loopF fuel 4 1 (by omega) (by omega)

/-- Claim C4 counterexample: on `c4Data` (weekly habit, `customDays`
absent, completed days 5 and 3, incomplete Monday 4, today = 6) the source
walk breaks at day 4 and returns 1, while the walk the claim describes
(defaults applied through `isHabitDueOnDate`: Sunday-only for weekly) skips
the non-due Monday and returns 2. -/
theorem c4_defaults_counterexample :
    getCurrentStreak 100 6 c4Data "h" = some 1 ∧
    getCurrentStreakPerSpec 100 6 c4Data "h" = some 2 := ⟨rfl, rfl⟩

/-- Claim C4 amended: when `customDays` is absent the source walk does NOT
apply the Sunday-only/never-due defaults — it behaves exactly as for a
daily habit, breaking on the first incomplete day regardless of the
habit's frequency. -/
theorem streak_walk_daily_when_customDays_absent (habit : Habit)
    (logs : List HabitLog) (hcd : habit.customDays = none) :
    ∀ (fuel : Nat) (dd : Int) (s : Nat),
      streakLoop habit logs fuel dd s =
        streakLoop { habit with frequency := HabitFrequency.daily } logs fuel dd s := by
  intro fuel
  induction fuel with
  | zero => intro dd s; rfl
  | succ fuel ih =>
    intro dd s
    rw [streakLoop]
    conv_rhs => rw [streakLoop]
    cases hfind : logs.find? (fun l => decide (l.date = dd)) with
    | some log =>
      simp only [hfind]
      by_cases hc : log.completed = true
      · simp only [hc, if_true]
        by_cases hcap : s + 1 > 3650
        · simp [hcap]
        · simp only [if_neg hcap, ih]
      · have hc' : log.completed = false := by
          cases hb : log.completed
          · rfl
          · exact absurd hb hc
        simp only [hc', Bool.false_eq_true, if_false, hcd]
        by_cases hf : habit.frequency = HabitFrequency.daily
        · simp [hf]
        · simp [if_neg hf]
    | none =>
      simp only [hfind, Bool.false_eq_true, if_false, hcd]
      by_cases hf : habit.frequency = HabitFrequency.daily
      · simp [hf]
      · simp [if_neg hf]

/-- Witness for the amended C4 theorem at a concrete input. -/
theorem streak_walk_daily_when_customDays_absent_witness :
    streakLoop exHabitWeekly [exLog 5, exLog 3] 10 5 0 =
      streakLoop { exHabitWeekly with frequency := HabitFrequency.daily }
        [exLog 5, exLog 3] 10 5 0 :=
  streak_walk_daily_when_customDays_absent exHabitWeekly [exLog 5, exLog 3]
    rfl 10 5 0

theorem streakLoopF_ge (habit : Habit) (logs : List HabitLog)
    (fds : List FreezeDay) : ∀ (fuel : Nat) (dd : Int) (s s2 : Nat),
    streakLoopF habit logs fds fuel dd s = some s2 → s ≤ s2 := by
  intro fuel
  induction fuel with
  | zero => intro dd s s2 h; simp [streakLoopF] at h
  | succ fuel ih =>
    intro dd s s2 h
    rw [streakLoopF] at h
    split at h
    · exact ih _ _ _ h
    · simp only [] at h
      split at h
      · split at h
        · simp only [Option.some.injEq] at h; omega
        · have := ih _ _ _ h; omega
      · split at h
        · simp only [Option.some.injEq] at h; omega
        · split at h
          · split at h
            · simp only [Option.some.injEq] at h; omega
            · split at h
              · simp only [Option.some.injEq] at h; omega
              · exact ih _ _ _ h
          · simp only [Option.some.injEq] at h; omega

theorem plain_loop_le_freeze_loop (habit : Habit) (logs : List HabitLog)
    (fds : List FreezeDay)
    (hfreq : habit.frequency = HabitFrequency.daily)
    (hall : ∀ l ∈ logs, l.completed = true)
    (hdisj : ∀ l ∈ logs, isFrozenDate l.date fds = false) :
    ∀ (fuel1 fuel2 : Nat) (dd : Int) (s s1 s2 : Nat),
      streakLoop habit logs fuel1 dd s = some s1 →
      streakLoopF habit logs fds fuel2 dd s = some s2 → s1 ≤ s2 := by
  intro fuel1
  induction fuel1 with
  | zero => intro fuel2 dd s s1 s2 h1 _; simp [streakLoop] at h1
  | succ fuel1 ih =>
    intro fuel2 dd s s1 s2 h1 h2
    by_cases hfz : isFrozenDate dd fds = true
    · -- a frozen day carries no completed log, so the plain walk breaks here
      have hfind : logs.find? (fun l => decide (l.date = dd)) = none := by
        cases hf : logs.find? (fun l => decide (l.date = dd)) with
        | none => rfl
        | some log =>
          have hmem := List.mem_of_find?_eq_some hf
          have hdate : log.date = dd := by
            have := List.find?_some hf; simpa using this
          have hfr := hdisj log hmem
          rw [hdate, hfz] at hfr
          exact absurd hfr (by simp)
      rw [streakLoop] at h1
      simp only [hfind] at h1
      rw [if_neg (by simp : ¬(false = true)), if_pos hfreq] at h1
      simp only [Option.some.injEq] at h1
      cases fuel2 with
      | zero => simp [streakLoopF] at h2
      | succ fuel2 =>
        rw [streakLoopF, if_pos hfz] at h2
        have := streakLoopF_ge habit logs fds fuel2 (dd - 1) s s2 h2
        omega
    · cases fuel2 with
      | zero => simp [streakLoopF] at h2
      | succ fuel2 =>
        rw [streakLoop] at h1
        rw [streakLoopF, if_neg hfz] at h2
        simp only [] at h1 h2
        cases hfind : logs.find? (fun l => decide (l.date = dd)) with
        | some log =>
          have hc : log.completed = true := hall log (List.mem_of_find?_eq_some hfind)
          simp only [hfind, hc, if_true] at h1 h2
          by_cases hcap : s + 1 > 3650
          · rw [if_pos hcap] at h1 h2
            simp only [Option.some.injEq] at h1 h2
            omega
          · rw [if_neg hcap] at h1 h2
            exact ih fuel2 (dd - 1) (s + 1) s1 s2 h1 h2
        | none =>
          simp only [hfind] at h1 h2
          rw [if_neg (by simp : ¬(false = true)), if_pos hfreq] at h1
          rw [if_neg (by simp : ¬(false = true)), if_pos hfreq] at h2
          simp only [Option.some.injEq] at h1 h2
          omega

/-- Claim C5: for a daily habit whose freeze days all fall on dates with no
completed log, whenever both walks terminate the freeze-aware current
streak is at least the plain current streak. -/
theorem freeze_streak_ge_plain (fuel1 fuel2 : Nat) (today : Int)
    (d : HabitData) (habitId : String) (habit : Habit) (s1 s2 : Nat)
    (hhab : getHabit d habitId = some habit)
    (hfreq : habit.frequency = HabitFrequency.daily)
    (hdisj : ∀ l ∈ d.logs, l.habitId = habitId → l.completed = true →
      isFrozenDate l.date (d.freezeDays.getD []) = false)
    (h1 : getCurrentStreak fuel1 today d habitId = some s1)
    (h2 : getCurrentStreakWithFreeze fuel2 today d habitId = some s2) :
    s1 ≤ s2 := by
  rw [getCurrentStreak] at h1
  rw [getCurrentStreakWithFreeze] at h2
  simp only [] at h1 h2
  rw [hhab] at h1 h2
  set L := (getLogs d (some habitId) none none).filter (fun l => l.completed) with hLdef
  have hmemL : ∀ l ∈ L, l ∈ d.logs ∧ l.habitId = habitId ∧ l.completed = true := by
    intro l hl
    rw [hLdef] at hl
    have h1' := (List.mem_filter).mp hl
    have hsorted : l ∈ d.logs.filter (fun l => decide (l.habitId = habitId)) := by
      have hperm := List.perm_insertionSort
        (fun a b : HabitLog => b.date ≤ a.date)
        (d.logs.filter (fun l => decide (l.habitId = habitId)))
      exact hperm.mem_iff.mp (by simpa [getLogs, getLogsOf] using h1'.1)
    have h2' := (List.mem_filter).mp hsorted
    exact ⟨h2'.1, by simpa using h2'.2, by simpa using h1'.2⟩
  have hall : ∀ l ∈ L, l.completed = true := fun l hl => (hmemL l hl).2.2
  have hdisjL : ∀ l ∈ L, isFrozenDate l.date (d.freezeDays.getD []) = false := by
    intro l hl
    obtain ⟨hm, hh, hc⟩ := hmemL l hl
    exact hdisj l hm hh hc
  by_cases hemp : L.isEmpty
  · rw [if_pos hemp] at h1
    simp only [Option.some.injEq] at h1
    omega
  · rw [if_neg hemp] at h1 h2
    cases hts : (L.find? (fun l => decide (l.date = today))).isSome with
    | true =>
      rw [hts] at h1
      simp only [hts, Bool.true_or, if_true] at h1 h2
      exact plain_loop_le_freeze_loop habit L (d.freezeDays.getD [])
        hfreq hall hdisjL fuel1 fuel2 today 0 s1 s2 h1 h2
    | false =>
      rw [hts] at h1
      simp only [hts, Bool.false_or, Bool.false_eq_true, if_false] at h1
      by_cases htf : isFrozenDate today (d.freezeDays.getD []) = true
      · simp only [hts, htf, Bool.false_or, if_true] at h2
        cases fuel2 with
        | zero => simp [streakLoopF] at h2
        | succ fuel2 =>
          rw [streakLoopF, if_pos htf] at h2
          exact plain_loop_le_freeze_loop habit L (d.freezeDays.getD [])
            hfreq hall hdisjL fuel1 fuel2 (today - 1) 0 s1 s2 h1 h2
      · have htf' : isFrozenDate today (d.freezeDays.getD []) = false := by
          cases hb : isFrozenDate today (d.freezeDays.getD [])
          · rfl
          · exact absurd hb htf
        simp only [hts, htf', Bool.false_or, Bool.false_eq_true, if_false] at h2
        exact plain_loop_le_freeze_loop habit L (d.freezeDays.getD [])
          hfreq hall hdisjL fuel1 fuel2 (today - 1) 0 s1 s2 h1 h2

/-- Witness for claim C5: the spec's running example (plain streak 3,
freeze-aware streak 6). -/
theorem freeze_streak_ge_plain_witness :
    getCurrentStreak 100 8 specExData "h" = some 3 ∧
    getCurrentStreakWithFreeze 100 8 specExData "h" = some 6 ∧ (3 : Nat) ≤ 6 :=
  ⟨rfl, rfl,
    freeze_streak_ge_plain 100 100 8 specExData "h" exHabitDaily 3 6 rfl rfl
      (by decide) rfl rfl⟩

/-! Lemmas about badge awarding. -/

theorem awardBadge_frame (now id : String) (d : HabitData) (hid : String)
    (t : BadgeType) :
    (awardBadge now id d hid t).2.habits = d.habits ∧
    (awardBadge now id d hid t).2.logs = d.logs ∧
    (awardBadge now id d hid t).2.freezeDays = d.freezeDays ∧
    (awardBadge now id d hid t).2.categories = d.categories ∧
    (awardBadge now id d hid t).2.version = d.version := by
  rw [awardBadge]
  split <;> exact ⟨rfl, rfl, rfl, rfl, rfl⟩

theorem hasBadge_awardBadge_self (now id : String) (d : HabitData)
    (hid : String) (t : BadgeType) :
    hasBadge (awardBadge now id d hid t).2 hid t = true := by
  rw [awardBadge]
  by_cases hb : hasBadge { d with badges := some (d.badges.getD []) } hid t = true
  · rw [if_pos hb]; exact hb
  · rw [if_neg hb]
    simp [hasBadge, createBadge, List.any_append]

theorem hasBadge_awardBadge_mono (now id : String) (d : HabitData)
    (hidA hidB : String) (tA tB : BadgeType)
    (hb : hasBadge d hidA tA = true) :
    hasBadge (awardBadge now id d hidB tB).2 hidA tA = true := by
  rw [awardBadge]
  split
  · exact hb
  · simp only [hasBadge] at hb ⊢
    simp only [Option.getD_some, List.any_append, Bool.or_eq_true]
    exact Or.inl hb

theorem hasBadge_awardBadge_other (now id : String) (d : HabitData)
    (hidA hidB : String) (tA tB : BadgeType) (hne : tA ≠ tB) :
    hasBadge (awardBadge now id d hidB tB).2 hidA tA = hasBadge d hidA tA := by
  rw [awardBadge]
  split
  · rfl
  · have hlast : (decide ((createBadge now id hidB tB).habitId = hidA ∧
        (createBadge now id hidB tB).type = tA)) = false := by
      simp only [createBadge, decide_eq_false_iff_not]
      rintro ⟨_, ht⟩
      exact hne ht.symm
    simp only [hasBadge, Option.getD_some, List.any_append, List.any_cons,
      List.any_nil, hlast, Bool.or_false]

theorem awardFold_frame (now : String) (idGen : Nat → String) (hid : String)
    (streak : Nat) : ∀ (ms : List Milestone) (g : Nat) (d : HabitData)
    (acc : List Badge),
    (awardFold now idGen hid streak ms g d acc).2.1.habits = d.habits ∧
    (awardFold now idGen hid streak ms g d acc).2.1.logs = d.logs ∧
    (awardFold now idGen hid streak ms g d acc).2.1.freezeDays = d.freezeDays ∧
    (awardFold now idGen hid streak ms g d acc).2.1.categories = d.categories ∧
    (awardFold now idGen hid streak ms g d acc).2.1.version = d.version := by
  intro ms
  induction ms with
  | nil => intro g d acc; exact ⟨rfl, rfl, rfl, rfl, rfl⟩
  | cons m ms ih =>
    intro g d acc
    rw [awardFold]
    split
    · rcases haw : awardBadge now (idGen g) d hid m.type with ⟨ob, d'⟩
      have hfr := awardBadge_frame now (idGen g) d hid m.type
      rw [haw] at hfr
      cases ob with
      | some b =>
        simp only []
        obtain ⟨e1, e2, e3, e4, e5⟩ := ih (g + 1) d' (acc ++ [b])
        exact ⟨e1.trans hfr.1, e2.trans hfr.2.1, e3.trans hfr.2.2.1,
          e4.trans hfr.2.2.2.1, e5.trans hfr.2.2.2.2⟩
      | none =>
        simp only []
        obtain ⟨e1, e2, e3, e4, e5⟩ := ih g d' acc
        exact ⟨e1.trans hfr.1, e2.trans hfr.2.1, e3.trans hfr.2.2.1,
          e4.trans hfr.2.2.2.1, e5.trans hfr.2.2.2.2⟩
    · exact ih g d acc

theorem awardFold_hasBadge_mono (now : String) (idGen : Nat → String)
    (hid : String) (streak : Nat) (hidA : String) (tA : BadgeType) :
    ∀ (ms : List Milestone) (g : Nat) (d : HabitData) (acc : List Badge),
    hasBadge d hidA tA = true →
    hasBadge (awardFold now idGen hid streak ms g d acc).2.1 hidA tA = true := by
  intro ms
  induction ms with
  | nil => intro g d acc hb; exact hb
  | cons m ms ih =>
    intro g d acc hb
    rw [awardFold]
    split
    · rcases haw : awardBadge now (idGen g) d hid m.type with ⟨ob, d'⟩
      have hmono := hasBadge_awardBadge_mono now (idGen g) d hidA hid tA m.type hb
      rw [haw] at hmono
      cases ob with
      | some b => exact ih (g + 1) d' (acc ++ [b]) hmono
      | none => exact ih g d' acc hmono
    · exact ih g d acc hb

theorem awardFold_invariant (now : String) (idGen : Nat → String)
    (hid : String) (streak : Nat) : ∀ (ms : List Milestone) (g : Nat)
    (d : HabitData) (acc : List Badge) (m : Milestone), m ∈ ms →
    streak ≥ m.days →
    hasBadge (awardFold now idGen hid streak ms g d acc).2.1 hid m.type = true := by
  intro ms
  induction ms with
  | nil => intro g d acc m hm; exact absurd hm (by simp)
  | cons m' ms ih =>
    intro g d acc m hm hge
    rcases List.mem_cons.mp hm with rfl | htail
    · rw [awardFold]
      by_cases hg : streak ≥ m.days ∧ hasBadge d hid m.type = false
      · rw [if_pos hg]
        rcases haw : awardBadge now (idGen g) d hid m.type with ⟨ob, d'⟩
        have hself := hasBadge_awardBadge_self now (idGen g) d hid m.type
        rw [haw] at hself
        cases ob with
        | some b =>
          exact awardFold_hasBadge_mono now idGen hid streak hid m.type ms
            (g + 1) d' (acc ++ [b]) hself
        | none =>
          exact awardFold_hasBadge_mono now idGen hid streak hid m.type ms
            g d' acc hself
      · rw [if_neg hg]
        have hb : hasBadge d hid m.type = true := by
          rcases Bool.eq_false_or_eq_true (hasBadge d hid m.type) with ht | hf
          · exact ht
          · exact absurd ⟨hge, hf⟩ hg
        exact awardFold_hasBadge_mono now idGen hid streak hid m.type ms
          g d acc hb
    · rw [awardFold]
      split
      · rcases haw : awardBadge now (idGen g) d hid m'.type with ⟨ob, d'⟩
        cases ob with
        | some b => exact ih (g + 1) d' (acc ++ [b]) m htail hge
        | none => exact ih g d' acc m htail hge
      · exact ih g d acc m htail hge

theorem awardFold_no_award (now : String) (idGen : Nat → String)
    (hid : String) (streak : Nat) : ∀ (ms : List Milestone) (g : Nat)
    (d : HabitData) (acc : List Badge),
    (∀ m ∈ ms, ¬(streak ≥ m.days ∧ hasBadge d hid m.type = false)) →
    awardFold now idGen hid streak ms g d acc = (acc, d, g) := by
  intro ms
  induction ms with
  | nil => intro g d acc _; rfl
  | cons m ms ih =>
    intro g d acc hnone
    rw [awardFold, if_neg (hnone m (by simp))]
    exact ih g d acc (fun m' hm' => hnone m' (by simp [hm']))

theorem getCurrentStreak_congr (fuel : Nat) (today : Int) (hid : String)
    (d d' : HabitData) (hh : d'.habits = d.habits) (hl : d'.logs = d.logs) :
    getCurrentStreak fuel today d' hid = getCurrentStreak fuel today d hid := by
  simp only [getCurrentStreak, getLogs, getHabit, hh, hl]

/-- Claim C7: once `checkAndAwardBadges` has run, an immediate second call
on the resulting snapshot awards nothing and changes nothing, and
`awardBadge` on an already-awarded `(habitId, type)` pair returns `null`
leaving the snapshot untouched. -/
theorem checkAndAward_idempotent (fuel : Nat) (today : Int)
    (now1 now2 : String) (idGen1 idGen2 : Nat → String) (g1 g2 : Nat)
    (d : HabitData) (habitId : String) (bs : List Badge) (d1 : HabitData)
    (g1' : Nat)
    (h1 : checkAndAwardBadges fuel today now1 idGen1 g1 d habitId
      = some (bs, d1, g1')) :
    checkAndAwardBadges fuel today now2 idGen2 g2 d1 habitId
      = some ([], d1, g2) ∧
    (∀ (dd : HabitData) (t : BadgeType) (nowX idX : String),
      hasBadge dd habitId t = true →
      awardBadge nowX idX dd habitId t = (none, dd)) := by
  constructor
  · rw [checkAndAwardBadges] at h1
    cases hs : getCurrentStreak fuel today d habitId with
    | none => rw [hs] at h1; exact absurd h1 (by simp)
    | some streak =>
      rw [hs] at h1
      have hfold : awardFold now1 idGen1 habitId streak BADGE_MILESTONES g1 d []
          = (bs, d1, g1') := by
        simpa using h1
      have hframe := awardFold_frame now1 idGen1 habitId streak
        BADGE_MILESTONES g1 d []
      rw [hfold] at hframe
      have hs1 : getCurrentStreak fuel today d1 habitId = some streak := by
        rw [getCurrentStreak_congr fuel today habitId d d1 hframe.1 hframe.2.1]
        exact hs
      rw [checkAndAwardBadges, hs1]
      have hinv : ∀ m ∈ BADGE_MILESTONES,
          ¬(streak ≥ m.days ∧ hasBadge d1 habitId m.type = false) := by
        rintro m hm ⟨hge, hfalse⟩
        have := awardFold_invariant now1 idGen1 habitId streak
          BADGE_MILESTONES g1 d [] m hm hge
        rw [hfold] at this
        rw [this] at hfalse
        exact absurd hfalse (by simp)
      show some (awardFold now2 idGen2 habitId streak BADGE_MILESTONES
        g2 d1 []) = some ([], d1, g2)
      rw [awardFold_no_award now2 idGen2 habitId streak BADGE_MILESTONES
        g2 d1 [] hinv]
  · intro dd t nowX idX hb
    obtain ⟨L, hL⟩ : ∃ L, dd.badges = some L := by
      cases hB : dd.badges with
      | none => rw [hasBadge, hB] at hb; simp at hb
      | some L => exact ⟨L, rfl⟩
    have hd0 : ({ dd with badges := some (dd.badges.getD []) } : HabitData) = dd := by
      cases dd; simp_all
    rw [awardBadge]
    simp only [hd0]
    rw [if_pos hb]

/-- Witness for claim C7: after the week badge is earned on `c7Data`
(plain streak 7), a second call returns no badges and the same snapshot. -/
theorem checkAndAward_idempotent_witness :
    checkAndAwardBadges 100 10 "n2" exIdGen 5 c7DataAfter "h"
      = some ([], c7DataAfter, 5) :=
  (checkAndAward_idempotent 100 10 "now" "n2" exIdGen exIdGen 0 5 c7Data "h"
    [c7Badge] c7DataAfter 1 rfl).1

theorem awardFold_acc (now : String) (idGen : Nat → String) (hid : String)
    (streak : Nat) : ∀ (ms : List Milestone) (g : Nat) (d : HabitData)
    (acc : List Badge),
    awardFold now idGen hid streak ms g d acc
      = (acc ++ (awardFold now idGen hid streak ms g d []).1,
         (awardFold now idGen hid streak ms g d []).2.1,
         (awardFold now idGen hid streak ms g d []).2.2) := by
  intro ms
  induction ms with
  | nil => intro g d acc; simp [awardFold]
  | cons m ms ih =>
    intro g d acc
    by_cases hg : streak ≥ m.days ∧ hasBadge d hid m.type = false
    · rcases haw : awardBadge now (idGen g) d hid m.type with ⟨ob, d'⟩
      cases ob with
      | some b =>
        have hL : awardFold now idGen hid streak (m :: ms) g d acc
            = awardFold now idGen hid streak ms (g + 1) d' (acc ++ [b]) := by
          rw [awardFold, if_pos hg, haw]
        have hR : awardFold now idGen hid streak (m :: ms) g d []
            = awardFold now idGen hid streak ms (g + 1) d' ([] ++ [b]) := by
          rw [awardFold, if_pos hg, haw]
        rw [hL, hR, ih (g + 1) d' (acc ++ [b]), ih (g + 1) d' ([] ++ [b])]
        simp [List.append_assoc]
      | none =>
        have hL : awardFold now idGen hid streak (m :: ms) g d acc
            = awardFold now idGen hid streak ms g d' acc := by
          rw [awardFold, if_pos hg, haw]
        have hR : awardFold now idGen hid streak (m :: ms) g d []
            = awardFold now idGen hid streak ms g d' [] := by
          rw [awardFold, if_pos hg, haw]
        rw [hL, hR, ih g d' acc]
    · have hL : awardFold now idGen hid streak (m :: ms) g d acc
          = awardFold now idGen hid streak ms g d acc := by
        rw [awardFold, if_neg hg]
      have hR : awardFold now idGen hid streak (m :: ms) g d []
          = awardFold now idGen hid streak ms g d [] := by
        rw [awardFold, if_neg hg]
      rw [hL, hR, ih g d acc]

theorem awardFold_main (now : String) (idGen : Nat → String) (hid : String)
    (streak : Nat) : ∀ (ms : List Milestone) (g : Nat) (d : HabitData),
    (ms.map Milestone.type).Nodup →
    ((awardFold now idGen hid streak ms g d []).1.map Badge.type
      = (ms.filter fun m => decide (streak ≥ m.days)
          && !hasBadge d hid m.type).map Milestone.type) ∧
    (∀ b ∈ (awardFold now idGen hid streak ms g d []).1,
      b.habitId = hid ∧ b.earnedAt = now) ∧
    ((awardFold now idGen hid streak ms g d []).2.1.badges.getD []
      = d.badges.getD [] ++ (awardFold now idGen hid streak ms g d []).1) := by
  intro ms
  induction ms with
  | nil =>
    intro g d _
    refine ⟨rfl, ?_, by simp [awardFold]⟩
    intro b hb
    exact absurd hb (by simp [awardFold])
  | cons m ms ih =>
    intro g d hnd
    have hcomp : (∀ x ∈ ms, ¬x.type = m.type) ∧
        (List.map Milestone.type ms).Nodup := by simpa using hnd
    by_cases hg : streak ≥ m.days ∧ hasBadge d hid m.type = false
    · have hfalse : ¬(hasBadge { d with badges := some (d.badges.getD []) }
          hid m.type = true) := by
        have heq : hasBadge { d with badges := some (d.badges.getD []) } hid m.type
            = hasBadge d hid m.type := rfl
        rw [heq, hg.2]; simp
      have haw : awardBadge now (idGen g) d hid m.type
          = (some (createBadge now (idGen g) hid m.type),
             { d with badges := some (d.badges.getD []
                ++ [createBadge now (idGen g) hid m.type]) }) := by
        simp only [awardBadge]
        rw [if_neg hfalse]
        rfl
      have hL : awardFold now idGen hid streak (m :: ms) g d []
          = awardFold now idGen hid streak ms (g + 1)
              { d with badges := some (d.badges.getD []
                 ++ [createBadge now (idGen g) hid m.type]) }
              ([] ++ [createBadge now (idGen g) hid m.type]) := by
        rw [awardFold, if_pos hg, haw]
      have hsplit := awardFold_acc now idGen hid streak ms (g + 1)
        { d with badges := some (d.badges.getD []
           ++ [createBadge now (idGen g) hid m.type]) }
        ([] ++ [createBadge now (idGen g) hid m.type])
      obtain ⟨ihmap, ihmem, ihbadges⟩ := ih (g + 1)
        { d with badges := some (d.badges.getD []
           ++ [createBadge now (idGen g) hid m.type]) } hcomp.2
      have hfc : (ms.filter fun x => decide (streak ≥ x.days)
            && !hasBadge { d with badges := some (d.badges.getD []
                 ++ [createBadge now (idGen g) hid m.type]) } hid x.type)
          = ms.filter fun x => decide (streak ≥ x.days)
              && !hasBadge d hid x.type := by
        apply List.filter_congr
        intro x hx
        have hne : x.type ≠ m.type := hcomp.1 x hx
        have hoth := hasBadge_awardBadge_other now (idGen g) d hid hid
          x.type m.type hne
        rw [haw] at hoth
        rw [hoth]
      have hfiltercons : ((m :: ms).filter fun x => decide (streak ≥ x.days)
          && !hasBadge d hid x.type)
          = m :: (ms.filter fun x => decide (streak ≥ x.days)
              && !hasBadge d hid x.type) := by
        rw [List.filter_cons]
        rw [if_pos (by simp [hg.1, hg.2])]
      refine ⟨?_, ?_, ?_⟩
      · rw [hL, hsplit, hfiltercons]
        simp only [List.nil_append, List.singleton_append, List.map_cons]
        rw [ihmap, hfc]
        rfl
      · intro bb hbb
        rw [hL, hsplit] at hbb
        simp only [List.nil_append, List.singleton_append, List.mem_cons] at hbb
        rcases hbb with rfl | htail
        · exact ⟨rfl, rfl⟩
        · exact ihmem bb htail
      · rw [hL, hsplit]
        simp only [List.nil_append]
        rw [ihbadges]
        simp [List.append_assoc]
    · have hL : awardFold now idGen hid streak (m :: ms) g d []
          = awardFold now idGen hid streak ms g d [] := by
        rw [awardFold, if_neg hg]
      have hpredm : (decide (streak ≥ m.days) && !hasBadge d hid m.type)
          = false := by
        by_cases hge : streak ≥ m.days
        · have hb : hasBadge d hid m.type = true := by
            rcases Bool.eq_false_or_eq_true (hasBadge d hid m.type) with ht | hf
            · exact ht
            · exact absurd ⟨hge, hf⟩ hg
          simp [hb]
        · simp [hge]
      obtain ⟨ihmap, ihmem, ihbadges⟩ := ih g d hcomp.2
      refine ⟨?_, ?_, ?_⟩
      · rw [hL, List.filter_cons, if_neg (by simp [hpredm])]
        exact ihmap
      · rw [hL]; exact ihmem
      · rw [hL]; exact ihbadges

/-- Claim C1 counterexample: on `c1Data` the freeze-aware streak is 7 and no
week badge has been awarded, so the claim requires `checkAndAwardBadges` to
create a week badge — but it creates none, because the source computes the
PLAIN streak (6) instead of the freeze-aware one. -/
theorem checkAndAward_freeze_counterexample :
    getCurrentStreakWithFreeze 100 10 c1Data "h" = some 7 ∧
    hasBadge c1Data "h" BadgeType.week = false ∧
    (checkAndAwardBadges 100 10 "now" exIdGen 0 c1Data "h").map
      (fun r => r.1) = some [] ∧
    getCurrentStreak 100 10 c1Data "h" = some 6 := ⟨rfl, rfl, rfl, rfl⟩

/-- Claim C1 amended: `checkAndAwardBadges` computes the PLAIN current
streak (`getCurrentStreak`, freeze-unaware) and then, for every milestone
whose threshold is at most that streak and which is not already awarded,
creates and persists a Badge for the habit, returning exactly the new
badges and leaving every non-badge field of the snapshot unchanged. -/
theorem checkAndAward_plain_characterization (fuel : Nat) (today : Int)
    (now : String) (idGen : Nat → String) (g : Nat) (d : HabitData)
    (habitId : String) (bs : List Badge) (d' : HabitData) (g' : Nat) (s : Nat)
    (h : checkAndAwardBadges fuel today now idGen g d habitId
      = some (bs, d', g'))
    (hs : getCurrentStreak fuel today d habitId = some s) :
    bs.map Badge.type
      = (BADGE_MILESTONES.filter fun m => decide (s ≥ m.days)
          && !hasBadge d habitId m.type).map Milestone.type ∧
    (∀ b ∈ bs, b.habitId = habitId ∧ b.earnedAt = now) ∧
    d'.badges.getD [] = d.badges.getD [] ++ bs ∧
    d'.habits = d.habits ∧ d'.logs = d.logs ∧
    d'.freezeDays = d.freezeDays ∧ d'.categories = d.categories ∧
    d'.version = d.version := by
  rw [checkAndAwardBadges, hs] at h
  have hfold : awardFold now idGen habitId s BADGE_MILESTONES g d []
      = (bs, d', g') := by simpa using h
  have hnd : (BADGE_MILESTONES.map Milestone.type).Nodup := by decide
  obtain ⟨hmap, hmem, hbadges⟩ := awardFold_main now idGen habitId s
    BADGE_MILESTONES g d hnd
  have hframe := awardFold_frame now idGen habitId s BADGE_MILESTONES g d []
  rw [hfold] at hmap hmem hbadges hframe
  exact ⟨hmap, hmem, hbadges, hframe.1, hframe.2.1, hframe.2.2.1,
    hframe.2.2.2.1, hframe.2.2.2.2⟩

/-- Witness for the amended C1 theorem: on `c7Data` (plain streak exactly 7)
the returned badges are exactly one week badge. -/
theorem checkAndAward_plain_characterization_witness :
    ([c7Badge] : List Badge).map Badge.type
      = (BADGE_MILESTONES.filter fun m => decide ((7 : Nat) ≥ m.days)
          && !hasBadge c7Data "h" m.type).map Milestone.type :=
  (checkAndAward_plain_characterization 100 10 "now" exIdGen 0 c7Data "h"
    [c7Badge] c7DataAfter 1 7 rfl rfl).1

/-! Lemmas for the longest-streak scan. -/

theorem hasRun_mono {S S' : List Int} (h : ∀ z ∈ S, z ∈ S') {d : Int}
    {n : Nat} (hr : hasRun S d n) : hasRun S' d n :=
  fun i hi => h _ (hr i hi)

theorem isLongestRun_congr {S S' : List Int} (h : ∀ z : Int, z ∈ S ↔ z ∈ S')
    {m : Nat} (hm : isLongestRun S m) : isLongestRun S' m := by
  obtain ⟨⟨dd, hdd⟩, hub⟩ := hm
  exact ⟨⟨dd, hasRun_mono (fun z hz => (h z).mp hz) hdd⟩,
    fun dd n hr => hub dd n (hasRun_mono (fun z hz => (h z).mpr hz) hr)⟩

/-- Invariant proof for `longestScan`: `P` holds the dates already
scanned (all at most `prev`), `cur` is the length of the maximal
consecutive run ending exactly at `prev`, `best` the longest run within
`P`, and `rest` the still-unscanned logs (strictly ascending, all beyond
`prev`).  The scan then computes the longest run of the whole date set. -/
theorem longestScan_spec : ∀ (rest : List HabitLog) (P : List Int)
    (prev : Int) (cur best : Nat),
    (∀ y ∈ P, y ≤ prev) →
    (∀ l ∈ rest, prev < l.date) →
    (List.Pairwise (fun a b : HabitLog => a.date < b.date) rest) →
    hasRun P (prev - (cur : Int) + 1) cur →
    (∀ n : Nat, hasRun P (prev + 1 - (n : Int)) n → n ≤ cur) →
    (∃ dd, hasRun P dd best) →
    (∀ dd n, hasRun P dd n → n ≤ best) →
    1 ≤ best → cur ≤ best →
    isLongestRun (P ++ rest.map HabitLog.date) (longestScan prev cur best rest) := by
  intro rest
  induction rest with
  | nil =>
    intro P prev cur best _ _ _ _ _ hex hub2 _ _
    rw [longestScan, List.map_nil, List.append_nil]
    exact ⟨hex, hub2⟩
  | cons x xs ih =>
    intro P prev cur best hub hgt hpw hcur hmax hex hub2 hone hcb
    have hX : prev < x.date := hgt x (by simp)
    have hgt' : ∀ l ∈ xs, x.date < l.date := (List.pairwise_cons.mp hpw).1
    have hpw' := (List.pairwise_cons.mp hpw).2
    have hmemP' : ∀ z : Int, z ∈ P ++ [x.date] ↔ z ∈ P ∨ z = x.date := by
      intro z; simp [List.mem_append]
    have hub' : ∀ y ∈ P ++ [x.date], y ≤ x.date := by
      intro y hy
      rcases (hmemP' y).mp hy with h | h
      · exact le_of_lt (lt_of_le_of_lt (hub y h) hX)
      · exact le_of_eq h
    have hlist : P ++ (x :: xs).map HabitLog.date
        = (P ++ [x.date]) ++ xs.map HabitLog.date := by simp
    rw [longestScan]
    by_cases hd1 : x.date - prev = 1
    · rw [if_pos hd1, hlist]
      have hcur' : hasRun (P ++ [x.date])
          (x.date - ((cur + 1 : Nat) : Int) + 1) (cur + 1) := by
        intro i hi
        by_cases hic : i < cur
        · have hv := hcur i hic
          have heq : x.date - ((cur + 1 : Nat) : Int) + 1 + (i : Int)
              = prev - (cur : Int) + 1 + (i : Int) := by push_cast; omega
          rw [heq]
          exact List.mem_append_left _ hv
        · have hieq : i = cur := by omega
          subst hieq
          have heq : x.date - ((i + 1 : Nat) : Int) + 1 + (i : Int) = x.date := by
            push_cast; omega
          rw [heq]
          exact List.mem_append_right _ (by simp)
      have hmax' : ∀ n : Nat, hasRun (P ++ [x.date]) (x.date + 1 - (n : Int)) n
          → n ≤ cur + 1 := by
        intro n hr
        by_cases hn0 : n = 0
        · omega
        · have hsub : hasRun P (prev + 1 - ((n - 1 : Nat) : Int)) (n - 1) := by
            intro i hi
            have hv := hr i (by omega)
            have hvlt : x.date + 1 - (n : Int) + (i : Int) < x.date := by
              omega
            rcases (hmemP' _).mp hv with h | h
            · have heq : prev + 1 - ((n - 1 : Nat) : Int) + (i : Int)
                  = x.date + 1 - (n : Int) + (i : Int) := by
                push_cast [Nat.cast_sub (by omega : 1 ≤ n)]
                omega
              rw [heq]; exact h
            · omega
          have := hmax (n - 1) hsub
          omega
      have hex' : ∃ dd, hasRun (P ++ [x.date]) dd (max best (cur + 1)) := by
        by_cases hbc : cur + 1 ≤ best
        · rw [max_eq_left hbc]
          obtain ⟨dd, hdd⟩ := hex
          exact ⟨dd, hasRun_mono (fun z hz => List.mem_append_left _ hz) hdd⟩
        · rw [max_eq_right (by omega : best ≤ cur + 1)]
          exact ⟨_, hcur'⟩
      have hub2' : ∀ dd n, hasRun (P ++ [x.date]) dd n
          → n ≤ max best (cur + 1) := by
        intro dd n hr
        by_cases hinP : ∀ i : Nat, i < n → (dd + (i : Int)) ∈ P
        · exact le_trans (hub2 dd n hinP) (le_max_left _ _)
        · push_neg at hinP
          obtain ⟨i, hi, hni⟩ := hinP
          have hvX : dd + (i : Int) = x.date := by
            rcases (hmemP' _).mp (hr i hi) with h | h
            · exact absurd h hni
            · exact h
          have hieq : i = n - 1 := by
            by_contra hne
            have hi1 : i + 1 < n := by omega
            have hle := hub' _ (hr (i + 1) hi1)
            push_cast at hle
            omega
          have hdd : dd = x.date + 1 - (n : Int) := by
            subst hieq
            push_cast [Nat.cast_sub (by omega : 1 ≤ n)] at hvX
            omega
          subst hdd
          exact le_trans (hmax' n hr) (le_max_right _ _)
      exact ih (P ++ [x.date]) x.date (cur + 1) (max best (cur + 1)) hub' hgt'
        hpw' hcur' hmax' hex' hub2' (le_trans hone (le_max_left _ _))
        (le_max_right _ _)
    · rw [if_neg hd1, hlist]
      have hX2 : prev + 1 < x.date := by omega
      have hcur' : hasRun (P ++ [x.date])
          (x.date - ((1 : Nat) : Int) + 1) 1 := by
        intro i hi
        have hieq : i = 0 := by omega
        subst hieq
        have heq : x.date - ((1 : Nat) : Int) + 1 + ((0 : Nat) : Int) = x.date := by
          push_cast; omega
        rw [heq]
        exact List.mem_append_right _ (by simp)
      have hmax' : ∀ n : Nat, hasRun (P ++ [x.date]) (x.date + 1 - (n : Int)) n
          → n ≤ 1 := by
        intro n hr
        by_contra hn
        have hv := hr (n - 2) (by omega)
        have hveq : x.date + 1 - (n : Int) + ((n - 2 : Nat) : Int)
            = x.date - 1 := by
          push_cast [Nat.cast_sub (by omega : 2 ≤ n)]
          omega
        rw [hveq] at hv
        rcases (hmemP' _).mp hv with h | h
        · have := hub _ h
          omega
        · omega
      have hex' : ∃ dd, hasRun (P ++ [x.date]) dd best := by
        obtain ⟨dd, hdd⟩ := hex
        exact ⟨dd, hasRun_mono (fun z hz => List.mem_append_left _ hz) hdd⟩
      have hub2' : ∀ dd n, hasRun (P ++ [x.date]) dd n → n ≤ best := by
        intro dd n hr
        by_cases hinP : ∀ i : Nat, i < n → (dd + (i : Int)) ∈ P
        · exact hub2 dd n hinP
        · push_neg at hinP
          obtain ⟨i, hi, hni⟩ := hinP
          have hvX : dd + (i : Int) = x.date := by
            rcases (hmemP' _).mp (hr i hi) with h | h
            · exact absurd h hni
            · exact h
          have hieq : i = n - 1 := by
            by_contra hne
            have hi1 : i + 1 < n := by omega
            have hle := hub' _ (hr (i + 1) hi1)
            push_cast at hle
            omega
          have hdd : dd = x.date + 1 - (n : Int) := by
            subst hieq
            push_cast [Nat.cast_sub (by omega : 1 ≤ n)] at hvX
            omega
          subst hdd
          exact le_trans (hmax' n hr) hone
      exact ih (P ++ [x.date]) x.date 1 best hub' hgt' hpw' hcur' hmax' hex'
        hub2' hone hone

/-- Claim C6: `getLongestStreak` returns the length of the longest run of
consecutive calendar dates among the habit's completed logs (given the
data-model invariant of at most one log per habit and date), and is
invariant under any change to the freeze-day ledger and to the habit
registry (so due-day/frequency semantics play no role). -/
theorem getLongestStreak_correct (d : HabitData) (habitId : String)
    (hnd : (((d.logs.filter fun l => decide (l.habitId = habitId)).filter
        fun l => l.completed).map HabitLog.date).Nodup) :
    isLongestRun
      (((d.logs.filter fun l => decide (l.habitId = habitId)).filter
        fun l => l.completed).map HabitLog.date)
      (getLongestStreak d habitId) ∧
    (∀ fz, getLongestStreak { d with freezeDays := fz } habitId
        = getLongestStreak d habitId) ∧
    (∀ hs, getLongestStreak { d with habits := hs } habitId
        = getLongestStreak d habitId) := by
  refine ⟨?_, fun _ => rfl, fun _ => rfl⟩
  have hgl : getLogs d (some habitId) none none
      = List.insertionSort (fun a b : HabitLog => b.date ≤ a.date)
          (d.logs.filter fun l => decide (l.habitId = habitId)) := rfl
  have hperm : List.Perm
      ((List.insertionSort (fun a b : HabitLog => a.date ≤ b.date)
        ((getLogs d (some habitId) none none).filter
          fun l => l.completed)).map HabitLog.date)
      (((d.logs.filter fun l => decide (l.habitId = habitId)).filter
        fun l => l.completed).map HabitLog.date) := by
    refine List.Perm.map _ ?_
    refine (List.perm_insertionSort _ _).trans ?_
    rw [hgl]
    exact (List.perm_insertionSort _ _).filter _
  have hmem : ∀ z : Int,
      z ∈ (List.insertionSort (fun a b : HabitLog => a.date ≤ b.date)
        ((getLogs d (some habitId) none none).filter
          fun l => l.completed)).map HabitLog.date ↔
      z ∈ ((d.logs.filter fun l => decide (l.habitId = habitId)).filter
        fun l => l.completed).map HabitLog.date :=
    fun z => hperm.mem_iff
  have hndA : ((List.insertionSort (fun a b : HabitLog => a.date ≤ b.date)
      ((getLogs d (some habitId) none none).filter
        fun l => l.completed)).map HabitLog.date).Nodup :=
    hperm.nodup_iff.mpr hnd
  haveI : IsTotal HabitLog (fun a b : HabitLog => a.date ≤ b.date) :=
    ⟨fun a b => le_total a.date b.date⟩
  haveI : IsTrans HabitLog (fun a b : HabitLog => a.date ≤ b.date) :=
    ⟨fun a b c hab hbc => le_trans hab hbc⟩
  have hsorted : List.Sorted (fun a b : HabitLog => a.date ≤ b.date)
      (List.insertionSort (fun a b : HabitLog => a.date ≤ b.date)
        ((getLogs d (some habitId) none none).filter
          fun l => l.completed)) :=
    List.sorted_insertionSort _ _
  have hdistinct : List.Pairwise (fun a b : HabitLog => a.date ≠ b.date)
      (List.insertionSort (fun a b : HabitLog => a.date ≤ b.date)
        ((getLogs d (some habitId) none none).filter
          fun l => l.completed)) := by
    have hp : List.Pairwise (fun a b : Int => a ≠ b)
        ((List.insertionSort (fun a b : HabitLog => a.date ≤ b.date)
          ((getLogs d (some habitId) none none).filter
            fun l => l.completed)).map HabitLog.date) := hndA
    rw [List.pairwise_map] at hp
    exact hp
  have hstrict : List.Pairwise (fun a b : HabitLog => a.date < b.date)
      (List.insertionSort (fun a b : HabitLog => a.date ≤ b.date)
        ((getLogs d (some habitId) none none).filter
          fun l => l.completed)) :=
    (List.Pairwise.and hsorted hdistinct).imp
      (fun h => lt_of_le_of_ne h.1 h.2)
  apply isLongestRun_congr hmem
  have hres : getLongestStreak d habitId
      = (match List.insertionSort (fun a b : HabitLog => a.date ≤ b.date)
          ((getLogs d (some habitId) none none).filter
            fun l => l.completed) with
         | [] => 0
         | x :: xs => longestScan x.date 1 1 xs) := rfl
  rw [hres]
  generalize hc : List.insertionSort (fun a b : HabitLog => a.date ≤ b.date)
      ((getLogs d (some habitId) none none).filter
        fun l => l.completed) = A at hstrict ⊢
  cases A with
  | nil =>
    show isLongestRun (List.map HabitLog.date ([] : List HabitLog)) 0
    refine ⟨⟨0, fun i hi => absurd hi (by omega)⟩, ?_⟩
    intro dd n hr
    by_contra hn
    have hv := hr 0 (by omega)
    simp at hv
  | cons x xs =>
    show isLongestRun (List.map HabitLog.date (x :: xs))
      (longestScan x.date 1 1 xs)
    obtain ⟨hgt, hpw⟩ := List.pairwise_cons.mp hstrict
    have hmain := longestScan_spec xs [x.date] x.date 1 1
      (by intro y hy; simp at hy; omega)
      hgt hpw
      (by
        intro i hi
        have h0 : i = 0 := by omega
        subst h0
        have heq : x.date - ((1 : Nat) : Int) + 1 + ((0 : Nat) : Int)
            = x.date := by push_cast; omega
        rw [heq]; simp)
      (by
        intro n hr
        by_contra hn
        have hv := hr 0 (by omega)
        simp only [List.mem_singleton] at hv
        omega)
      ⟨x.date, by
        intro i hi
        have h0 : i = 0 := by omega
        subst h0
        simp⟩
      (by
        intro dd n hr
        by_contra hn
        have h0 := hr 0 (by omega)
        have h1 := hr 1 (by omega)
        simp only [List.mem_singleton] at h0 h1
        omega)
      (le_refl 1) (le_refl 1)
    have hl : [x.date] ++ xs.map HabitLog.date = (x :: xs).map HabitLog.date := by
      simp
    rw [hl] at hmain
    exact hmain

/-- Witness for claim C6: the spec's example — completed logs on days 1‥3
and 5‥7 give a longest streak of exactly 3, characterised as the longest
consecutive-date run. -/
theorem getLongestStreak_correct_witness :
    getLongestStreak specExData "h" = 3 ∧
    isLongestRun
      (((specExData.logs.filter fun l => decide (l.habitId = "h")).filter
        fun l => l.completed).map HabitLog.date)
      (getLongestStreak specExData "h") :=
  ⟨rfl, (getLongestStreak_correct specExData "h" (by decide)).1⟩

end HabitTracker
